import Mathlib

/-!
Verification of the SM-2 spaced-repetition scheduling engine
(`prod_backend/sm2_card.py`, `prod_backend/sm2_system.py`) and the API layer
that guards it (`prod_backend/server.py`).

Modelling conventions:
* Python floats are modelled by `ℚ`; every concrete claim instance was checked
  to agree with IEEE-754 double evaluation at that point.
* Calendar dates are modelled by their proleptic-Gregorian ordinal (an `ℤ`),
  exactly Python's `date.toordinal`; `datetime + timedelta(days = k)` is
  ordinal addition.  `toOrdinal` below computes the ordinal from `Y-M-D`.
* Python's `round` on an exactly-representable value is round-half-to-even;
  `pyRound` implements that on `ℚ`.
-/

/-- Python's `round` for the exactly-representable products that arise here:
round to the nearest integer, ties to the even integer. -/
def pyRound (x : ℚ) : ℤ :=
  if x - ⌊x⌋ < 1/2 then ⌊x⌋
  else if 1/2 < x - ⌊x⌋ then ⌊x⌋ + 1
  else if ⌊x⌋ % 2 = 0 then ⌊x⌋ else ⌊x⌋ + 1

/-- One SM-2 card, after `SM2Card.__init__` plus the extra fields
(`sm2_card.py`).  `first_date` is the stored date (modelled by its ordinal). -/
structure Card where
  card_id : String
  first_date : ℤ
  ef : ℚ
  n : ℤ
  interval : ℤ
  next_review : Option ℤ
  review_count : ℤ
  name : String
  tags : List String
  note : String
  images : List String
deriving DecidableEq, Repr

/-- `SM2Card.__init__(card_id, first_date)`: default SM-2 scheduling state. -/
def mkCard (card_id : String) (first_date : ℤ) : Card :=
  { card_id := card_id, first_date := first_date, ef := 5/2, n := 0,
    interval := 0, next_review := none, review_count := 0,
    name := "", tags := [], note := "", images := [] }

/-- `SM2Card.review(q, review_date)` (`sm2_card.py` lines 34-60): update EF
first, then branch on pass/fail for `n`/`interval` (the interval in the third
branch reads the pre-call interval and the just-updated EF), then set
`next_review = review_date + interval` and bump `review_count`. -/
def Card.review (c : Card) (q : ℤ) (review_date : ℤ) : Card :=
  let raw : ℚ := c.ef + (1/10 - (5 - (q : ℚ)) * (2/25 + (5 - (q : ℚ)) * (1/50)))
  let ef : ℚ := if raw ≤ 13/10 then 13/10 else raw
  let n : ℤ := if q < 3 then 0 else c.n + 1
  let interval : ℤ :=
    if q < 3 then 1
    else if c.n + 1 = 1 then 1
    else if c.n + 1 = 2 then 6
    else pyRound ((c.interval : ℚ) * ef)
  { c with
    ef := ef
    n := n
    interval := interval
    next_review := some (review_date + interval)
    review_count := c.review_count + 1 }

/-- Cumulative day counts before each month in a non-leap year. -/
def monthDays : List ℕ := [0, 31, 59, 90, 120, 151, 181, 212, 243, 273, 304, 334]

/-- Gregorian leap-year rule. -/
def isLeap (y : ℕ) : Bool := y % 4 == 0 && (y % 100 != 0 || y % 400 == 0)

/-- Days in all years before year `y` (proleptic Gregorian). -/
def daysBeforeYear (y : ℕ) : ℕ :=
  365 * (y - 1) + (y - 1) / 4 - (y - 1) / 100 + (y - 1) / 400

/-- Days in year `y` before month `m`. -/
def daysBeforeMonth (y m : ℕ) : ℕ :=
  monthDays.getD (m - 1) 0 + (if 2 < m && isLeap y then 1 else 0)

/-- Python's `date(y, m, d).toordinal()`. -/
def toOrdinal (y m d : ℕ) : ℤ :=
  ((daysBeforeYear y + daysBeforeMonth y m + d : ℕ) : ℤ)

/-- Ascending order on cards by their identifier, the key used by
`SM2System.get_due_cards` when sorting its result. -/
def keyLe (a b : Card) : Prop := a.card_id ≤ b.card_id

instance : DecidableRel keyLe :=
  fun a b => inferInstanceAs (Decidable (a.card_id ≤ b.card_id))

instance : IsTotal Card keyLe :=
  ⟨fun a b => le_total a.card_id b.card_id⟩

instance : IsTrans Card keyLe :=
  ⟨fun _ _ _ h1 h2 => le_trans h1 h2⟩

/-- The due test of `SM2System.get_due_cards`: `next_review` is present and
`≤ today` (a `datetime` is always truthy, so `if c.next_review` is exactly
presence). -/
def Card.isDue (c : Card) (today : ℤ) : Bool :=
  match c.next_review with
  | some dt => decide (dt ≤ today)
  | none => false

/-- `SM2System.get_due_cards(today)` (`sm2_system.py` lines 42-54): filter the
collection by the due test, then sort ascending by `card_id`. -/
def get_due_cards (cs : List Card) (today : ℤ) : List Card :=
  List.insertionSort keyLe (cs.filter (fun c => c.isDue today))

/-- One stored card document of the production API (`server.py`), the record
shape written by `add_card_api`; dates are modelled by their ordinals. -/
structure DbCard where
  card_id : String
  name : String
  first_date : ℤ
  last_review_date : ℤ
  ef : ℚ
  n : ℤ
  interval : ℤ
  next_review : Option ℤ
  review_count : ℤ
  tags : List String
  note : String
  images : List String
  link : String
deriving DecidableEq, Repr

/-- The error outcomes of the card API routes (`server.py`): the 400/404
responses, in the order the handlers test for them. -/
inductive ApiError where
  | missingFields
  | invalidScore
  | invalidDate
  | duplicateCard
  | cardNotFound
deriving DecidableEq, Repr

/-- `db.get_card(uid, cid)` for one user's collection: first stored document
with the given identifier. -/
def get_card (db : List DbCard) (cid : String) : Option DbCard :=
  db.find? (fun c => c.card_id == cid)

/-- `db.update_card(uid, cid, updates)`: Mongo `update_one` applies the
`$set` to the first matching document only. -/
def update_first (db : List DbCard) (cid : String) (f : DbCard → DbCard) : List DbCard :=
  match db with
  | [] => []
  | c :: rest => if c.card_id == cid then f c :: rest else c :: update_first rest cid f

/-- `add_card_api` (`server.py` lines 205-262): reject missing id, then an
out-of-range score, then a duplicate id, then an unparseable date
(`first_date = none` models a parse failure); otherwise build the card,
perform its first review dated `first_date`, and insert the document.
Returns the resulting collection together with the route's outcome. -/
def add_card_api (db : List DbCard) (card_id : String) (first_date : Option ℤ)
    (score : ℤ) (nm : String) (tags : List String) (link : String) :
    List DbCard × Except ApiError DbCard :=
  if card_id = "" then (db, Except.error ApiError.missingFields)
  else if ¬ (0 ≤ score ∧ score ≤ 5) then (db, Except.error ApiError.invalidScore)
  else if (get_card db card_id).isSome then (db, Except.error ApiError.duplicateCard)
  else
    match first_date with
    | none => (db, Except.error ApiError.invalidDate)
    | some fd =>
      let card := ({ mkCard card_id fd with name := nm, tags := tags } : Card).review score fd
      let data : DbCard :=
        { card_id := card.card_id
          name := card.name
          first_date := card.first_date
          last_review_date := fd
          ef := card.ef
          n := card.n
          interval := card.interval
          next_review := card.next_review
          review_count := card.review_count
          tags := card.tags
          note := ""
          images := []
          link := link }
      (db ++ [data], Except.ok data)

/-- `review_card_api` (`server.py` lines 264-314): reject missing id, then an
out-of-range score, then an unparseable date, then an unknown id; otherwise
rebuild an `SM2Card` from the stored scheduling fields, review it, and
`$set` the updated fields on the stored document. -/
def review_card_api (db : List DbCard) (card_id : String) (score : ℤ)
    (review_date : Option ℤ) : List DbCard × Except ApiError DbCard :=
  if card_id = "" then (db, Except.error ApiError.missingFields)
  else if ¬ (0 ≤ score ∧ score ≤ 5) then (db, Except.error ApiError.invalidScore)
  else
    match review_date with
    | none => (db, Except.error ApiError.invalidDate)
    | some rd =>
      match get_card db card_id with
      | none => (db, Except.error ApiError.cardNotFound)
      | some cd =>
        let card := ({ mkCard cd.card_id cd.first_date with
                        ef := cd.ef
                        n := cd.n
                        interval := cd.interval
                        review_count := cd.review_count } : Card).review score rd
        let apply := fun (c : DbCard) =>
          { c with
            ef := card.ef
            n := card.n
            interval := card.interval
            next_review := card.next_review
            review_count := card.review_count
            last_review_date := rd }
        (update_first db card_id apply, Except.ok (apply cd))

/-- A stored document used to instantiate the error-path theorems. -/
def dbCardW : DbCard :=
  { card_id := "two-sum", name := "", first_date := 0, last_review_date := 0,
    ef := 5/2, n := 1, interval := 1, next_review := some 1, review_count := 1,
    tags := [], note := "", images := [], link := "" }

/-- The JSON value stored under `next_review` by `SM2System._save`: `null`,
a `YYYY-MM-DD` date string (modelled by its ordinal), or the empty string
(representable in JSON but never produced by `_save`; `_load` treats it as
falsy, like `null`). -/
inductive NRField where
  | null
  | dateStr (d : ℤ)
  | emptyStr
deriving DecidableEq, Repr

/-- One per-card JSON record of `sm2_data.json`.  `first_date` is read with
direct indexing by `_load`, every other field with `.get` and a default, so
those are optional. -/
structure SaveRec where
  first_date : ℤ
  ef : Option ℚ := none
  n : Option ℤ := none
  interval : Option ℤ := none
  next_review : NRField := NRField.null
  review_count : Option ℤ := none
  name : Option String := none
  tags : Option (List String) := none
  note : Option String := none
  images : Option (List String) := none
deriving DecidableEq, Repr

/-- The record written for one card by `SM2System._save` (`sm2_system.py`
lines 80-93): all ten fields present, absent `next_review` written as
`null`. -/
def saveCard (c : Card) : SaveRec :=
  { first_date := c.first_date
    ef := some c.ef
    n := some c.n
    interval := some c.interval
    next_review :=
      match c.next_review with
      | some d => NRField.dateStr d
      | none => NRField.null
    review_count := some c.review_count
    name := some c.name
    tags := some c.tags
    note := some c.note
    images := some c.images }

/-- Rebuilding one card in `SM2System._load` (`sm2_system.py` lines 113-124):
`SM2Card(cid, first_date)` then field assignments with `.get` defaults; a
falsy `next_review` (null or empty string) loads as absent. -/
def loadCard (cid : String) (r : SaveRec) : Card :=
  { mkCard cid r.first_date with
    ef := r.ef.getD (5/2)
    n := r.n.getD 0
    interval := r.interval.getD 0
    next_review :=
      match r.next_review with
      | NRField.dateStr d => some d
      | _ => none
    review_count := r.review_count.getD 0
    name := (r.name.getD "")
    tags := r.tags.getD []
    note := (r.note.getD "")
    images := r.images.getD [] }

/-- `SM2System._save`: the whole file content, keyed by card id. -/
def saveAll (cs : List Card) : List (String × SaveRec) :=
  cs.map (fun c => (c.card_id, saveCard c))

/-- `SM2System._load` applied to a whole file: rebuild every card. -/
def loadAll (data : List (String × SaveRec)) : List Card :=
  data.map (fun p => loadCard p.1 p.2)

/-- A persisted record whose `interval` key is missing while `n` is 2: the
rebuilt-state shape the C9 claim quantifies over. -/
def zeroIntervalRec : SaveRec := { first_date := 0, n := some 2 }

/-- A card state whose next passing review multiplies interval 5 by an
updated EF of exactly 2.5, producing the half-way product 12.5. -/
def halfwayCard : Card :=
  { mkCard "half" 0 with ef := 12/5, n := 2, interval := 5 }

theorem card_review_ef_eq_max (c : Card) (q review_date : ℤ) :
    (c.review q review_date).ef =
      max (13/10) (c.ef + (1/10 - (5 - (q : ℚ)) * (2/25 + (5 - (q : ℚ)) * (1/50)))) := by
  rw [max_comm, max_def]
  exact rfl

theorem pyRound_floor_fract_lt (x : ℚ) (hx : x - ⌊x⌋ < 1/2) : pyRound x = ⌊x⌋ := by
  unfold pyRound
  rw [if_pos hx]

theorem pyRound_half (k : ℤ) : pyRound ((k : ℚ) + 1/2) = if k % 2 = 0 then k else k + 1 := by
  have h12 : ⌊(1/2 : ℚ)⌋ = 0 := by
    rw [Int.floor_eq_iff]
    norm_num
  have hf : ⌊(k : ℚ) + 1/2⌋ = k := by
    rw [add_comm, Int.floor_add_int, h12, zero_add]
  have hsub : (k : ℚ) + 1/2 - k = 1/2 := by ring
  unfold pyRound
  rw [hf, hsub]
  norm_num

theorem pyRound_intCast (k : ℤ) : pyRound (k : ℚ) = k := by
  have hf : ⌊(k : ℚ)⌋ = k := Int.floor_intCast k
  have hs : (k : ℚ) - k = 0 := by ring
  rw [pyRound_floor_fract_lt, hf]
  rw [hf, hs]
  norm_num

/-- C1: for a rating `q ∈ [0,5]` on any prior state with `EF ≥ 1.3`, the
easiness factor after `recordReview` equals
`max(1.3, EF + (0.1 - (5-q) * (0.08 + (5-q) * 0.02)))`, computed from the
pre-update EF and the rating alone, and in particular stays `≥ 1.3`. -/
theorem claim_C1_ef_update (c : Card) (q d : ℤ) (h0 : 0 ≤ q) (h5 : q ≤ 5)
    (hef : (13:ℚ)/10 ≤ c.ef) :
    (c.review q d).ef =
      max ((13:ℚ)/10) (c.ef + (1/10 - (5 - (q : ℚ)) * (2/25 + (5 - (q : ℚ)) * (1/50)))) ∧
    (13:ℚ)/10 ≤ (c.review q d).ef := by
  refine ⟨card_review_ef_eq_max c q d, ?_⟩
  rw [card_review_ef_eq_max c q d]
  exact le_max_left _ _

theorem claim_C1_witness :
    ((mkCard "a" 0).review 0 0).ef =
      max ((13:ℚ)/10)
        ((mkCard "a" 0).ef +
          (1/10 - (5 - ((0:ℤ) : ℚ)) * (2/25 + (5 - ((0:ℤ) : ℚ)) * (1/50)))) ∧
    (13:ℚ)/10 ≤ ((mkCard "a" 0).review 0 0).ef :=
  claim_C1_ef_update (mkCard "a" 0) 0 0 (le_refl 0) (by norm_num) (by norm_num [mkCard])

/-- C2: a failing rating (`q < 3`) resets `N` to 0 and `interval` to 1; a
passing rating increments `N`, and the new interval is 1 when the new `N` is
1, 6 when it is 2, and `round(previous interval * updated EF)` otherwise. -/
theorem claim_C2_branches (c : Card) (q d : ℤ) (h0 : 0 ≤ q) (h5 : q ≤ 5) :
    (q < 3 → (c.review q d).n = 0 ∧ (c.review q d).interval = 1) ∧
    (3 ≤ q → (c.review q d).n = c.n + 1 ∧
      (c.review q d).interval =
        (if c.n + 1 = 1 then 1
         else if c.n + 1 = 2 then 6
         else pyRound ((c.interval : ℚ) * (c.review q d).ef))) := by
  constructor
  · intro hq
    constructor <;> simp [Card.review, hq]
  · intro hq
    have hq3 : ¬ q < 3 := not_lt.mpr hq
    constructor <;> simp [Card.review, hq3]

theorem claim_C2_witness :
    ((4:ℤ) < 3 → ((mkCard "b" 0).review 4 0).n = 0 ∧ ((mkCard "b" 0).review 4 0).interval = 1) ∧
    ((3:ℤ) ≤ 4 → ((mkCard "b" 0).review 4 0).n = (mkCard "b" 0).n + 1 ∧
      ((mkCard "b" 0).review 4 0).interval =
        (if (mkCard "b" 0).n + 1 = 1 then 1
         else if (mkCard "b" 0).n + 1 = 2 then 6
         else pyRound (((mkCard "b" 0).interval : ℚ) * ((mkCard "b" 0).review 4 0).ef))) :=
  claim_C2_branches (mkCard "b" 0) 4 0 (by norm_num) (by norm_num)

/-- C3: every `recordReview` call sets `next_review` to exactly the review
date plus the just-computed interval (in days) and increments `review_count`
by exactly 1, whether the rating passes or fails. -/
theorem claim_C3_schedule_and_count (c : Card) (q d : ℤ) :
    (c.review q d).next_review = some (d + (c.review q d).interval) ∧
    (c.review q d).review_count = c.review_count + 1 :=
  ⟨rfl, rfl⟩

theorem isDue_iff (c : Card) (today : ℤ) :
    c.isDue today = true ↔ ∃ dt, c.next_review = some dt ∧ dt ≤ today := by
  cases h : c.next_review <;> simp [Card.isDue, h]

/-- C4 counterexample: the first review of an item created on 2024-01-01 with
rating 4 leaves the easiness factor at 2.5, not at the claimed 2.6
(the rating-4 EF delta is `0.1 - 1 * (0.08 + 1 * 0.02) = 0`). -/
theorem claim_C4_counterexample :
    ((mkCard "two-sum" (toOrdinal 2024 1 1)).review 4 (toOrdinal 2024 1 1)).ef ≠ 13/5 := by
  norm_num [Card.review, mkCard]

/-- C4 amended: the same scenario yields `EF = 2.5`, `N = 1`, `interval = 1`,
`nextReviewDate = 2024-01-02` and `reviewCount = 1`. -/
theorem claim_C4_amended :
    ((mkCard "two-sum" (toOrdinal 2024 1 1)).review 4 (toOrdinal 2024 1 1)).ef = 5/2 ∧
    ((mkCard "two-sum" (toOrdinal 2024 1 1)).review 4 (toOrdinal 2024 1 1)).n = 1 ∧
    ((mkCard "two-sum" (toOrdinal 2024 1 1)).review 4 (toOrdinal 2024 1 1)).interval = 1 ∧
    ((mkCard "two-sum" (toOrdinal 2024 1 1)).review 4 (toOrdinal 2024 1 1)).next_review =
      some (toOrdinal 2024 1 2) ∧
    ((mkCard "two-sum" (toOrdinal 2024 1 1)).review 4 (toOrdinal 2024 1 1)).review_count = 1 := by
  have hord : toOrdinal 2024 1 2 = toOrdinal 2024 1 1 + 1 := by decide
  refine ⟨?_, ?_, ?_, ?_, ?_⟩
  · norm_num [Card.review, mkCard]
  · norm_num [Card.review, mkCard]
  · norm_num [Card.review, mkCard]
  · rw [hord]
    norm_num [Card.review, mkCard]
  · norm_num [Card.review, mkCard]

/-- C5: `get_due_cards(today)` returns exactly the stored cards whose
`next_review` is present and `≤ today` (same-day counts as due), sorted by
`card_id` ascending; a card with no `next_review` never appears. -/
theorem claim_C5_due_query (cs : List Card) (today : ℤ) :
    List.Perm (get_due_cards cs today) (cs.filter (fun c => c.isDue today)) ∧
    List.Sorted keyLe (get_due_cards cs today) ∧
    ∀ c, c ∈ get_due_cards cs today ↔
      c ∈ cs ∧ ∃ dt, c.next_review = some dt ∧ dt ≤ today := by
  refine ⟨List.perm_insertionSort keyLe _, List.sorted_insertionSort keyLe _, ?_⟩
  intro c
  unfold get_due_cards
  rw [(List.perm_insertionSort keyLe _).mem_iff, List.mem_filter]
  simp [isDue_iff]

/-- C6: adding an identifier that is already stored fails with the duplicate
error, and the collection — in particular the already-stored document — is
left completely unchanged by the failed call. -/
theorem claim_C6_duplicate_add (db : List DbCard) (cid : String) (fd : Option ℤ)
    (score : ℤ) (nm : String) (tags : List String) (lk : String) (stored : DbCard)
    (hid : cid ≠ "") (h0 : 0 ≤ score) (h5 : score ≤ 5)
    (hdup : get_card db cid = some stored) :
    add_card_api db cid fd score nm tags lk = (db, Except.error ApiError.duplicateCard) ∧
    get_card (add_card_api db cid fd score nm tags lk).1 cid = some stored := by
  have hps : (get_card db cid).isSome = true := by rw [hdup]; rfl
  have h1 : add_card_api db cid fd score nm tags lk = (db, Except.error ApiError.duplicateCard) := by
    simp [add_card_api, hid, h0, h5, hps]
  exact ⟨h1, by rw [h1]; exact hdup⟩

theorem claim_C6_witness :
    (add_card_api [dbCardW] "two-sum" (some 0) 4 "" [] "" =
      ([dbCardW], Except.error ApiError.duplicateCard)) ∧
    get_card (add_card_api [dbCardW] "two-sum" (some 0) 4 "" [] "").1 "two-sum" =
      some dbCardW :=
  claim_C6_duplicate_add [dbCardW] "two-sum" (some 0) 4 "" [] "" dbCardW
    (by decide) (by norm_num) (by norm_num) (by rfl)

/-- C7: reviewing an identifier that is absent from the collection fails with
the not-found error, and the collection is left unchanged by the failed
call. -/
theorem claim_C7_review_not_found (db : List DbCard) (cid : String) (score rd : ℤ)
    (hid : cid ≠ "") (h0 : 0 ≤ score) (h5 : score ≤ 5)
    (habs : get_card db cid = none) :
    review_card_api db cid score (some rd) = (db, Except.error ApiError.cardNotFound) := by
  simp [review_card_api, hid, h0, h5, habs]

theorem claim_C7_witness :
    review_card_api [dbCardW] "three-sum" 4 (some 0) =
      ([dbCardW], Except.error ApiError.cardNotFound) :=
  claim_C7_review_not_found [dbCardW] "three-sum" 4 0
    (by decide) (by norm_num) (by norm_num) (by rfl)

theorem loadCard_saveCard (c : Card) : loadCard c.card_id (saveCard c) = c := by
  obtain ⟨cid, fd, ef, n, itv, nr, rc, nm, tg, nt, im⟩ := c
  cases nr <;> rfl

/-- C8: saving every card and loading the result back yields an identical
collection — every stored field (firstDate, ef, n, interval, nextReview,
reviewCount, name, tags, note, images) keeps its value — and an absent
`next_review` is serialized as `null`, never as the empty string. -/
theorem claim_C8_roundtrip (cs : List Card) :
    loadAll (saveAll cs) = cs ∧
    ∀ c ∈ cs, (saveCard c).next_review ≠ NRField.emptyStr ∧
      (c.next_review = none → (saveCard c).next_review = NRField.null) := by
  constructor
  · induction cs with
    | nil => rfl
    | cons c rest ih =>
      show loadCard c.card_id (saveCard c) :: loadAll (saveAll rest) = c :: rest
      rw [loadCard_saveCard, ih]
  · intro c _
    constructor
    · cases h : c.next_review <;> simp [saveCard, h]
    · intro h
      simp [saveCard, h]

theorem claim_C8_witness :
    loadAll (saveAll [mkCard "two-sum" 0]) = [mkCard "two-sum" 0] ∧
    (saveCard (mkCard "two-sum" 0)).next_review ≠ NRField.emptyStr :=
  ⟨(claim_C8_roundtrip [mkCard "two-sum" 0]).1,
   ((claim_C8_roundtrip [mkCard "two-sum" 0]).2 (mkCard "two-sum" 0) (by simp)).1⟩

/-- C9 counterexample: on the rebuilt state with `N = 2` and `interval`
loaded as 0, a passing review (`rating = 3`) computes
`round(0 * EF) = 0`, so the post-review interval is 0, not `≥ 1`. -/
theorem claim_C9_counterexample :
    ((loadCard "x" zeroIntervalRec).review 3 0).interval = 0 ∧
    ¬ (1 ≤ ((loadCard "x" zeroIntervalRec).review 3 0).interval) := by
  have hz : pyRound 0 = 0 := by
    have h := pyRound_intCast 0
    simpa using h
  have h : ((loadCard "x" zeroIntervalRec).review 3 0).interval = 0 := by
    norm_num [loadCard, zeroIntervalRec, mkCard, Card.review, hz]
  exact ⟨h, by rw [h]; decide⟩

/-- C9 amended: after `recordReview` with rating in [0,5] the interval is
`≥ 1` whenever the rating fails, or the new `N` is 1 or 2, or the pre-review
interval was already `≥ 1`; the rebuilt state with `N ≥ 2` and a
zero-loaded interval is the one exception, where a passing review leaves the
interval at 0. -/
theorem claim_C9_amended (c : Card) (q d : ℤ) (h0 : 0 ≤ q) (h5 : q ≤ 5)
    (h : q < 3 ∨ c.n + 1 = 1 ∨ c.n + 1 = 2 ∨ 1 ≤ c.interval) :
    1 ≤ (c.review q d).interval := by
  by_cases hq : q < 3
  · simp [Card.review, hq]
  · by_cases h1 : c.n + 1 = 1
    · simp [Card.review, hq, h1]
    · by_cases h2 : c.n + 1 = 2
      · norm_num [Card.review, hq, h1, h2]
      · have hi : 1 ≤ c.interval := by
          rcases h with h | h | h | h
          · exact absurd h hq
          · exact absurd h h1
          · exact absurd h h2
          · exact h
        have hef : (13:ℚ)/10 ≤ (c.review q d).ef := by
          rw [card_review_ef_eq_max]
          exact le_max_left _ _
        have hint : (c.review q d).interval =
            pyRound ((c.interval : ℚ) * (c.review q d).ef) := by
          simp [Card.review, hq, h1, h2]
        have hic : (1:ℚ) ≤ (c.interval : ℚ) := by exact_mod_cast hi
        have hx : (1:ℚ) ≤ (c.interval : ℚ) * (c.review q d).ef := by
          have hb : (1:ℚ) ≤ (c.review q d).ef := le_trans (by norm_num) hef
          calc (1:ℚ) = 1 * 1 := by ring
          _ ≤ (c.interval : ℚ) * (c.review q d).ef :=
              mul_le_mul hic hb (by norm_num) (le_trans (by norm_num) hic)
        have hfl : 1 ≤ ⌊(c.interval : ℚ) * (c.review q d).ef⌋ := by
          refine Int.le_floor.mpr ?_
          exact_mod_cast hx
        have hge : ⌊(c.interval : ℚ) * (c.review q d).ef⌋ ≤
            pyRound ((c.interval : ℚ) * (c.review q d).ef) := by
          unfold pyRound
          split_ifs <;> omega
        rw [hint]
        exact le_trans hfl hge

theorem claim_C9_amended_witness : 1 ≤ ((mkCard "c" 0).review 4 0).interval :=
  claim_C9_amended (mkCard "c" 0) 4 0 (by norm_num) (by norm_num)
    (Or.inr (Or.inl (by norm_num [mkCard])))

/-- C10: `round` in the third-and-later pass branch resolves an exact
half-way product by rounding to the nearest even integer (Python banker's
rounding); in general `round(k + 1/2)` is `k` for even `k` and `k + 1` for
odd `k`, and concretely a prior interval of 5 with updated EF 2.5 gives the
product 12.5 and a new interval of 12, not 13. -/
theorem claim_C10_bankers_rounding :
    (∀ k : ℤ, pyRound ((k : ℚ) + 1/2) = if k % 2 = 0 then k else k + 1) ∧
    (halfwayCard.review 5 0).ef = 5/2 ∧
    ((halfwayCard.interval : ℚ) * (halfwayCard.review 5 0).ef = 25/2) ∧
    (halfwayCard.review 5 0).interval = 12 := by
  have h3 : pyRound ((25:ℚ)/2) = 12 := by
    have he : ((25:ℚ)/2) = ((12:ℤ) : ℚ) + 1/2 := by norm_num
    rw [he, pyRound_half]
    norm_num
  refine ⟨pyRound_half, ?_, ?_, ?_⟩
  · norm_num [Card.review, halfwayCard, mkCard]
  · norm_num [Card.review, halfwayCard, mkCard]
  · have h4 : (halfwayCard.review 5 0).interval = pyRound ((25:ℚ)/2) := by
      norm_num [Card.review, halfwayCard, mkCard]
    rw [h4, h3]

